import Mathlib

/-!
Shallow embedding of `src/nn.py` (neural-network modules of the macaw
repository): DeepSet, CVAE, WLinear, WLinearMix, BiasLinear, MLP and
TwinValueFunction.

Tensors along their last dimension are modelled as functions `ℕ → ℚ`
(exact arithmetic); the batch dimension plays no role in the claims and
is dropped.  The transcendental `exp` used by the code is passed to each
definition as an explicit function argument `exp : ℚ → ℚ`, so that all
definitions stay computable; theorems that need monotonicity of the real
exponential take `StrictMono exp` as a hypothesis.
-/

/-- Module-level constant `LOG_VAR_MAX = 2` from `src/nn.py`. -/
def LOG_VAR_MAX : ℚ := 2

/-- Module-level constant `LOG_VAR_MIN = -20` from `src/nn.py`. -/
def LOG_VAR_MIN : ℚ := -20

/-- Dot product of the first `n` coordinates, `sum_i w i * v i`. -/
def dot (n : ℕ) (w v : ℕ → ℚ) : ℚ :=
  ((List.range n).map fun i => w i * v i).sum

/-- Pointwise `nn.ReLU`, `max 0`. -/
def reluV (v : ℕ → ℚ) : ℕ → ℚ :=
  fun i => max (v i) 0

/-- `torch.cat((a, b), -1)` where `a` occupies the first `w` coordinates. -/
def cat (w : ℕ) (a b : ℕ → ℚ) : ℕ → ℚ :=
  fun i => if i < w then a i else b (i - w)

/-- `torch.clamp(v, min=lo, max=hi)`, applied pointwise. -/
def clampT (lo hi : ℚ) (v : ℕ → ℚ) : ℕ → ℚ :=
  fun i => min (max (v i) lo) hi

/-- `nn.Linear(in_features, out_features)`: `y j = sum_i W j i * x i + b j`. -/
structure LinearM where
  in_features : ℕ
  weight : ℕ → ℕ → ℚ
  bias : ℕ → ℚ

/-- Forward pass of `nn.Linear`. -/
def LinearM.forward (l : LinearM) (x : ℕ → ℚ) : ℕ → ℚ :=
  fun j => dot l.in_features (l.weight j) x + l.bias j

/-- `WLinear` (src/nn.py lines 134-159): a hypernetwork layer.  The latent
`z` is mapped through the fixed linear map `fc` to a flat parameter vector
`theta`; `theta[: in*out]` is reshaped to an `in × out` weight matrix
(row-major, so `w i j = theta (i * out_features + j)`) and
`theta[in*out :]` is the bias; the layer computes `x @ w + b`. -/
structure WLinear where
  in_features : ℕ
  out_features : ℕ
  z : ℕ → ℚ
  fc : LinearM

/-- `self.w_idx = in_features * out_features`. -/
def WLinear.w_idx (p : WLinear) : ℕ := p.in_features * p.out_features

/-- Forward pass of `WLinear`: `theta = fc(z)`, then `x @ w + b`. -/
def WLinear.forward (p : WLinear) (x : ℕ → ℚ) : ℕ → ℚ :=
  let theta := p.fc.forward p.z
  fun j =>
    ((List.range p.in_features).map fun i =>
      x i * theta (i * p.out_features + j)).sum + theta (p.w_idx + j)

/-- `WLinear.adaptation_parameters` returns `[self.z]`; modelled at the
parameter-identity level below (see `Param`). -/
def WLinear.adaptationOnlyZ : Bool := true

/-- `BiasLinear` (src/nn.py lines 200-219): a standard affine transform
plus the additive correction `_bias @ _weight` with `_weight` of shape
`bias_size × out_features`. -/
structure BiasLinear where
  bias_size : ℕ
  linear : LinearM
  bias : ℕ → ℚ
  weight : ℕ → ℕ → ℚ

/-- Forward pass of `BiasLinear`: `self._linear(x) + self._bias @ self._weight`. -/
def BiasLinear.forward (p : BiasLinear) (x : ℕ → ℚ) : ℕ → ℚ :=
  fun j => p.linear.forward x j + dot p.bias_size p.bias (fun k => p.weight k j)

/-- One module of an `nn.Sequential` stack as assembled by `MLP.__init__`,
`DeepSet.__init__` or `TwinValueFunction.__init__`. -/
inductive SeqModule
  | linear (l : LinearM)
  | biasLin (l : BiasLinear)
  | wLin (l : WLinear)
  | relu

/-- Forward pass of one sequential module. -/
def SeqModule.forward : SeqModule → (ℕ → ℚ) → (ℕ → ℚ)
  | .linear l, x => l.forward x
  | .biasLin l, x => l.forward x
  | .wLin l, x => l.forward x
  | .relu, x => reluV x

/-- `nn.Sequential` application: modules applied left to right. -/
def seqForward (ms : List SeqModule) (x : ℕ → ℚ) : ℕ → ℚ :=
  ms.foldl (fun v m => m.forward v) x

/-- State of a built `MLP` (src/nn.py lines 222-279) as used by `forward`:
the assembled `seq`, the `_head` flag, the `deterministic` flag, the
assembled `head_seq`, the width `layer_widths[-2]` of the trunk output
(used to concatenate the auxiliary input), the built final width
`out_width` (doubled when probabilistic, it is what
`mu_logvar.shape[-1]` evaluates to), and the final activation. -/
structure MLP where
  seq : List SeqModule
  head : Bool
  deterministic : Bool
  head_seq : List SeqModule
  trunk_dim : ℕ
  out_width : ℕ
  final_activation : (ℕ → ℚ) → (ℕ → ℚ)

/-- The four shapes of value `MLP.forward` can return. -/
inductive MLPOutput
  | det (y : ℕ → ℚ)
  | prob (mu sigma : ℕ → ℚ)
  | detHead (y head_out : ℕ → ℚ)
  | probHead (mu sigma head_out : ℕ → ℚ)

/-- `self.pre_seq = self.seq[:-2]`. -/
def MLP.pre_seq (m : MLP) : List SeqModule :=
  m.seq.take (m.seq.length - 2)

/-- `self.post_seq = self.seq[-2:]`. -/
def MLP.post_seq (m : MLP) : List SeqModule :=
  m.seq.drop (m.seq.length - 2)

/-- The `elif self.deterministic / else` branches of `MLP.forward`
(src/nn.py lines 302-310), reached whenever there is no head or no
auxiliary input: deterministic mode returns the post-activation output
unchanged; probabilistic mode splits it at `shape[-1] // 2` and returns
`(mu, exp(logvar / 2))` with no clamping. -/
def MLP.forwardBase (exp : ℚ → ℚ) (m : MLP) (x : ℕ → ℚ) : MLPOutput :=
  if m.deterministic then
    .det (m.final_activation (seqForward m.seq x))
  else
    let mu_logvar := m.final_activation (seqForward m.seq x)
    .prob (fun j => mu_logvar j)
      (fun j => exp (mu_logvar (m.out_width / 2 + j) / 2))

/-- `MLP.forward(x, acts)` (src/nn.py lines 287-310).  The head branch is
taken only when `self._head and acts is not None`; there the whole
post-segment output is clamped to `[LOG_VAR_MIN, LOG_VAR_MAX]` before any
split. -/
def MLP.forward (exp : ℚ → ℚ) (m : MLP) (x : ℕ → ℚ)
    (acts : Option (ℕ → ℚ)) : MLPOutput :=
  match acts with
  | some a =>
    if m.head then
      let h := seqForward m.pre_seq x
      let head_input := cat m.trunk_dim h a
      let mu_logvar :=
        clampT LOG_VAR_MIN LOG_VAR_MAX (m.final_activation (seqForward m.post_seq h))
      let head_output := seqForward m.head_seq head_input
      if m.deterministic then
        .detHead mu_logvar head_output
      else
        .probHead (fun j => mu_logvar j)
          (fun j => exp (mu_logvar (m.out_width / 2 + j) / 2)) head_output
    else
      m.forwardBase exp x
  | none => m.forwardBase exp x

/-- The primary tensor of an `MLPOutput` (the deterministic output, or the
mean in probabilistic mode). -/
def MLPOutput.out : MLPOutput → (ℕ → ℚ)
  | .det y => y
  | .prob mu _ => mu
  | .detHead y _ => y
  | .probHead mu _ _ => mu

/-- Calling a (deterministic, headless) sub-`MLP` as the CVAE does:
`m(x)` is `MLP.forward(x, None)`, whose primary output is taken. -/
def MLP.call (exp : ℚ → ℚ) (m : MLP) (x : ℕ → ℚ) : ℕ → ℚ :=
  (MLP.forward exp m x none).out

/-- One `nn.Conv1d(d, d2, 1)` of the DeepSet encoder: a kernel-size-1
convolution is a per-element affine map on the channel dimension. -/
structure Conv1x1 where
  in_channels : ℕ
  weight : ℕ → ℕ → ℚ
  bias : ℕ → ℚ

/-- Per-element application of a 1x1 convolution. -/
def Conv1x1.apply (c : Conv1x1) (v : ℕ → ℚ) : ℕ → ℚ :=
  fun j => dot c.in_channels (c.weight j) v + c.bias j

/-- `DeepSet` (src/nn.py lines 12-33).  `__init__` appends an `nn.ReLU`
after every convolution (the guard `idx < len(encoder_hidden) - 1` holds
for every loop index), so the encoder is a stack of conv-then-ReLU
blocks, applied independently to each element; `self.aggregator` is
`lambda x: x.mean(-1)`, the arithmetic mean over the element axis.  A
batch entry is modelled as the list of its elements (each a channel
vector). -/
structure DeepSet where
  encoder : List Conv1x1

/-- The position-wise encoder applied to one element. -/
def DeepSet.encodeElem (d : DeepSet) (v : ℕ → ℚ) : ℕ → ℚ :=
  d.encoder.foldl (fun v c => reluV (c.apply v)) v

/-- `DeepSet.forward`: encode each element independently, then take the
mean over the element axis. -/
def DeepSet.forward (d : DeepSet) (x : List (ℕ → ℚ)) : ℕ → ℚ :=
  fun j => ((x.map d.encodeElem).map fun e => e j).sum / (x.length : ℚ)

/-- `CVAE` instance state (src/nn.py lines 36-78): the sub-networks, the
optional preprocess pair `(state_preprocess, latent_preprocess)`, the
cached latent `_z` and `_latent_dim`. -/
structure CVAE where
  _encoder : MLP
  _prior : Option MLP
  _decoder : MLP
  _traj_encoder : DeepSet
  _preprocess : Option (MLP × MLP)
  _z : Option (ℕ → ℚ)
  _latent_dim : ℕ

/-- `CVAE.__init__` ends with `self._z = None`: a freshly constructed
instance carries no cached latent. -/
def CVAE.init (enc : MLP) (pr : Option MLP) (dec : MLP) (te : DeepSet)
    (pre : Option (MLP × MLP)) (ld : ℕ) : CVAE :=
  { _encoder := enc, _prior := pr, _decoder := dec, _traj_encoder := te,
    _preprocess := pre, _z := none, _latent_dim := ld }

/-- `CVAE.sample(mu_logvar)` (src/nn.py lines 80-83) with the tensor width
`width` (= `mu_logvar.shape[-1]`) and the standard-normal draw `noise`
made explicit: `mu = mu_logvar[:, : width // 2]`,
`std = exp(mu_logvar[:, width // 2 :] / 2)`, result `noise * std + mu`. -/
def CVAE.sample (exp : ℚ → ℚ) (width : ℕ) (mu_logvar noise : ℕ → ℚ) : ℕ → ℚ :=
  fun j => noise j * exp (mu_logvar (width / 2 + j) / 2) + mu_logvar j

/-- `CVAE.prior(obs)` without sampling (src/nn.py lines 100-110): the
all-zero `mu_logvar` when no conditioning prior is configured, otherwise
the prior network's output. -/
def CVAE.priorMuLogvar (exp : ℚ → ℚ) (c : CVAE) (obs : ℕ → ℚ) : ℕ → ℚ :=
  match c._prior with
  | none => fun _ => 0
  | some p => MLP.call exp p obs

/-- `CVAE.prior(obs, sample=True)`: the pair `(mu_logvar, sample(mu_logvar))`;
the prior tensor has width `latent_dim * 2`. -/
def CVAE.priorWithSample (exp : ℚ → ℚ) (c : CVAE) (obs noise : ℕ → ℚ) :
    (ℕ → ℚ) × (ℕ → ℚ) :=
  let ml := CVAE.priorMuLogvar exp c obs
  (ml, CVAE.sample exp (2 * c._latent_dim) ml noise)

/-- `CVAE.fix(obs)` (src/nn.py lines 85-86): draw once from the prior,
detach (a value-level no-op) and store in `_z`. -/
def CVAE.fix (exp : ℚ → ℚ) (c : CVAE) (obs noise : ℕ → ℚ) : CVAE :=
  { c with _z := some (CVAE.priorWithSample exp c obs noise).2 }

/-- `CVAE.unfix()` (src/nn.py lines 88-89): clear the cached latent. -/
def CVAE.unfix (c : CVAE) : CVAE :=
  { c with _z := none }

/-- `CVAE.decode(latent, obs)` without sampling (src/nn.py lines 112-115):
optionally preprocess (`obs, latent = self._preprocess(obs, latent)` where
`_preprocess(s, l) = (state_preprocess(s), latent_preprocess(l))`), then
run the decoder on `cat((latent, obs), -1)`; the latent occupies the first
`latent_dim` coordinates. -/
def CVAE.decode (exp : ℚ → ℚ) (c : CVAE) (latent obs : ℕ → ℚ) : ℕ → ℚ :=
  match c._preprocess with
  | some pre =>
    MLP.call exp c._decoder
      (cat c._latent_dim (MLP.call exp pre.2 latent) (MLP.call exp pre.1 obs))
  | none => MLP.call exp c._decoder (cat c._latent_dim latent obs)

/-- `CVAE.encode(traj)` without sampling (src/nn.py lines 91-98): the set
encoder followed by the encoder network. -/
def CVAE.encode (exp : ℚ → ℚ) (c : CVAE) (traj : List (ℕ → ℚ)) : ℕ → ℚ :=
  MLP.call exp c._encoder (c._traj_encoder.forward traj)

/-- `CVAE.forward(obs, traj=None)` (src/nn.py lines 122-131): use the
cached `_z` when present, otherwise a fresh prior sample; decode; split
the decoder output at `shape[-1] // 2` and return
`(mean, exp(logvar / 2))` — no clamping is applied. -/
def CVAE.forward (exp : ℚ → ℚ) (c : CVAE) (obs noise : ℕ → ℚ) :
    (ℕ → ℚ) × (ℕ → ℚ) :=
  let z := match c._z with
    | some z => z
    | none => (CVAE.priorWithSample exp c obs noise).2
  let mu_logvar := CVAE.decode exp c z obs
  let half := c._decoder.out_width / 2
  (fun j => mu_logvar j, fun j => exp (mu_logvar (half + j) / 2))

/-- The two shapes of value `TwinValueFunction.forward` can return. -/
inductive TwinOutput
  | single (y : ℕ → ℚ)
  | pair (y1 y2 : ℕ → ℚ)

/-- `TwinValueFunction` (src/nn.py lines 313-339): two independently
parameterized stacks `f1`, `f2` of `WLinear` layers with ReLUs between
them. -/
structure TwinValueFunction where
  f1 : List SeqModule
  f2 : List SeqModule

/-- `TwinValueFunction.forward(x, return_min)`: both stacks are evaluated;
`return_min` selects `torch.minimum(x1, x2)` (pointwise) or the raw pair. -/
def TwinValueFunction.forward (t : TwinValueFunction) (x : ℕ → ℚ)
    (return_min : Bool) : TwinOutput :=
  let x1 := seqForward t.f1 x
  let x2 := seqForward t.f2 x
  if return_min then .single (fun j => min (x1 j) (x2 j)) else .pair x1 x2

/-- The choice of linear primitive in `MLP.__init__` (src/nn.py lines
247-250): `nn.Linear` by default, `BiasLinear` when `bias_linear=True`,
`WLinear` when `w_linear=True`. -/
inductive LinearKind
  | plain
  | biasL
  | wlin
deriving DecidableEq

/-- One entry of the `nn.Sequential` assembled by `MLP.__init__`,
at the architecture level: a linear primitive with its in/out widths, or
a ReLU. -/
inductive SeqItem
  | fc (inF outF : ℕ)
  | relu
deriving DecidableEq

/-- Identity of one learnable parameter tensor, tagged with the index of
the layer owning it. -/
inductive Param
  | z (layer : ℕ)
  | fc_weight (layer : ℕ)
  | fc_bias (layer : ℕ)
  | lin_weight (layer : ℕ)
  | lin_bias (layer : ℕ)
  | b_bias (layer : ℕ)
  | b_weight (layer : ℕ)
deriving DecidableEq

/-- The parameters registered by one linear primitive, in registration
order: `nn.Linear` has weight and bias; `BiasLinear` has its inner
linear's weight and bias plus `_bias` and `_weight`; `WLinear` has `z`
and its `fc`'s weight and bias. -/
def kindParams : LinearKind → ℕ → List Param
  | .plain, i => [.lin_weight i, .lin_bias i]
  | .biasL, i => [.lin_weight i, .lin_bias i, .b_bias i, .b_weight i]
  | .wlin, i => [.z i, .fc_weight i, .fc_bias i]

/-- The result of calling `w.adaptation_parameters()` on one freshly built
primitive (src/nn.py line 256).  `WLinear.adaptation_parameters` returns
`[self.z]` (line 151-152); `BiasLinear.adaptation_parameters` returns
`self.parameters()` (line 215-216); `nn.Linear` (torch) defines no such
method, so the attribute lookup raises `AttributeError`. -/
def kindAdaptationParams : LinearKind → ℕ → Except String (List Param)
  | .plain, _ => .error "AttributeError: Linear object has no attribute adaptation_parameters"
  | .biasL, i => .ok (kindParams .biasL i)
  | .wlin, i => .ok [.z i]

/-- `layer_widths[-1] *= 2` (src/nn.py line 245): the last width is
doubled when `deterministic=False`. -/
def doubleLast (ws : List ℕ) : List ℕ :=
  ws.take (ws.length - 1) ++ [2 * (ws.getLast?).getD 0]

/-- One iteration of the construction loop of `MLP.__init__` (src/nn.py
lines 254-259): build layer `idx`, collect its adaptation parameters into
`aparams` (raising if the primitive has no such method), append the
linear to `seq`, and append a ReLU unless this is the last layer. -/
def mlpInitStep (widths : List ℕ) (n : ℕ) (kind : LinearKind)
    (acc : Except String (List SeqItem × List Param)) (idx : ℕ) :
    Except String (List SeqItem × List Param) :=
  match acc with
  | .error e => .error e
  | .ok st =>
    match kindAdaptationParams kind idx with
    | .error e => .error e
    | .ok a =>
      let items := st.1 ++ [SeqItem.fc (widths.getD idx 0) (widths.getD (idx + 1) 0)]
      let items := if idx < n - 2 then items ++ [SeqItem.relu] else items
      .ok (items, st.2 ++ a)

/-- `MLP.__init__` (src/nn.py lines 222-262) at the architecture level,
without an auxiliary head: raise `ValueError` when fewer than two widths
are given; otherwise double the last width if probabilistic and run the
construction loop over `range(len(layer_widths) - 1)`.  Returns the
assembled `seq` items together with the collected `aparams`. -/
def mlpInit (ws : List ℕ) (deterministic : Bool) (kind : LinearKind) :
    Except String (List SeqItem × List Param) :=
  if ws.length < 2 then
    .error "Layer widths needs at least an in-dimension and out-dimension"
  else
    let widths := if deterministic then ws else doubleLast ws
    (List.range (ws.length - 1)).foldl (mlpInitStep widths ws.length kind) (.ok ([], []))

/-- `self.parameters()` of a headless `MLP` with `n` linear layers: every
layer's registered parameters, in order. -/
def MLP.parametersList (kind : LinearKind) (n : ℕ) : List Param :=
  (List.range n).flatMap (kindParams kind)

/-- `MLP.adaptation_parameters` (src/nn.py lines 284-285): the body is
`return self.parameters()` — the full parameter set, not the collected
`aparams`. -/
def MLP.adaptationParameters (kind : LinearKind) (n : ℕ) : List Param :=
  MLP.parametersList kind n

/-- A trivial deterministic headless MLP (empty stack), used where a
sub-network is present but irrelevant to the claim. -/
def mlpTrivial : MLP :=
  { seq := [], head := false, deterministic := false, head_seq := [],
    trunk_dim := 0, out_width := 0, final_activation := id }

/-- A concrete probabilistic MLP with widths `[1, 1]` (built width 2):
one linear layer whose weight row for output 1 (the log-variance slot)
is 4 and whose other entries are 0. -/
def linC1 : LinearM :=
  { in_features := 1, weight := fun j _ => if j = 1 then 4 else 0,
    bias := fun _ => 0 }

/-- The MLP `[1, 1]` built probabilistic: stack `[linC1]`, `out_width = 2`. -/
def mlpC1 : MLP :=
  { seq := [.linear linC1],
    head := false, deterministic := false, head_seq := [],
    trunk_dim := 0, out_width := 2, final_activation := id }

/-- The constant-1 input vector. -/
def xOne : ℕ → ℚ := fun _ => 1

/-- A concrete deterministic MLP with widths `[1, 1]` (single linear
layer of weight 5), an auxiliary head and `trunk_dim = 1`. -/
def mlpC4 : MLP :=
  { seq := [.linear { in_features := 1, weight := fun _ _ => 5, bias := fun _ => 0 }],
    head := true, deterministic := true,
    head_seq := [.relu,
      .linear { in_features := 2, weight := fun _ _ => 1, bias := fun _ => 0 }],
    trunk_dim := 1, out_width := 1, final_activation := id }

/-- A concrete decoder MLP with input width 2 and output width 2 whose
log-variance output (index 1) is 4 times the observation coordinate. -/
def linC2 : LinearM :=
  { in_features := 2, weight := fun j i => if j = 1 ∧ i = 1 then 4 else 0,
    bias := fun _ => 0 }

/-- The decoder MLP `[2, 2]`: stack `[linC2]`, deterministic (as all CVAE
sub-networks are), `out_width = 2`. -/
def decMLPC2 : MLP :=
  { seq := [.linear linC2],
    head := false, deterministic := true, head_seq := [],
    trunk_dim := 0, out_width := 2, final_activation := id }

/-- A concrete CVAE (latent_dim 1, action_dim 1, no conditioning prior,
no preprocessing) in the fixed state with cached latent 0. -/
def cvaeC2 : CVAE :=
  { _encoder := mlpTrivial, _prior := none, _decoder := decMLPC2,
    _traj_encoder := { encoder := [] }, _preprocess := none,
    _z := some (fun _ => 0), _latent_dim := 1 }

/-- A concrete one-layer DeepSet with unit weights. -/
def dC5 : DeepSet :=
  { encoder := [{ in_channels := 1, weight := fun _ _ => 1, bias := fun _ => 0 }] }

/-- Concrete set elements. -/
def e1C5 : ℕ → ℚ := fun _ => 1

/-- Concrete set elements. -/
def e2C5 : ℕ → ℚ := fun _ => 2

/-- A concrete twin critic whose first stack is a ReLU and whose second
stack is the identity. -/
def twinC7 : TwinValueFunction := { f1 := [.relu], f2 := [] }

/-- C5: for every DeepSet and every permutation of the element axis, the
forward output is unchanged (exact arithmetic): the encoder acts on each
element independently and the aggregator is the arithmetic mean over the
element axis. -/
theorem C5_deepset_permutation_invariant (d : DeepSet) (x y : List (ℕ → ℚ))
    (h : x.Perm y) : d.forward x = d.forward y := by
  funext j
  unfold DeepSet.forward
  rw [List.Perm.sum_eq ((h.map d.encodeElem).map fun e => e j),
    List.Perm.length_eq h]

/-- Witness for C5 at a concrete two-element set and its transposition. -/
theorem C5_deepset_permutation_invariant_witness :
    ([e1C5, e2C5].Perm [e2C5, e1C5]) ∧
      dC5.forward [e1C5, e2C5] = dC5.forward [e2C5, e1C5] :=
  ⟨List.Perm.swap e2C5 e1C5 [],
    C5_deepset_permutation_invariant dC5 [e1C5, e2C5] [e2C5, e1C5]
      (List.Perm.swap e2C5 e1C5 [])⟩

/-- C7: `TwinValueFunction.forward(x, return_min=True)` is the pointwise
minimum of the two outputs returned by `forward(x, return_min=False)`. -/
theorem C7_twin_min_consistency (t : TwinValueFunction) (x y1 y2 : ℕ → ℚ)
    (h : t.forward x false = TwinOutput.pair y1 y2) :
    t.forward x true = TwinOutput.single fun j => min (y1 j) (y2 j) := by
  simp only [TwinValueFunction.forward, Bool.false_eq_true, if_false,
    TwinOutput.pair.injEq] at h
  obtain ⟨h1, h2⟩ := h
  simp only [TwinValueFunction.forward, if_true, h1, h2]

/-- Witness for C7 at a concrete twin critic and input. -/
theorem C7_twin_min_consistency_witness :
    twinC7.forward xOne false =
      TwinOutput.pair (seqForward twinC7.f1 xOne) (seqForward twinC7.f2 xOne) ∧
    twinC7.forward xOne true =
      TwinOutput.single fun j =>
        min (seqForward twinC7.f1 xOne j) (seqForward twinC7.f2 xOne j) :=
  ⟨rfl, C7_twin_min_consistency twinC7 xOne _ _ rfl⟩

/-- C8: `CVAE.sample` on a tensor assembled from a mean half `mu` and a
log-variance half `logvar` (total width `2 * half`) returns
`noise * exp(logvar / 2) + mu` at every coordinate of the mean half; the
result is a deterministic function of `(mu, logvar, noise)`. -/
theorem C8_sample_reparameterization (exp : ℚ → ℚ) (half : ℕ)
    (mu logvar noise : ℕ → ℚ) (j : ℕ) (hj : j < half) :
    CVAE.sample exp (2 * half) (cat half mu logvar) noise j =
      noise j * exp (logvar j / 2) + mu j := by
  unfold CVAE.sample cat
  have h1 : 2 * half / 2 = half := by omega
  have h2 : ¬(half + j < half) := by omega
  rw [h1, if_neg h2, if_pos hj, Nat.add_sub_cancel_left]

/-- Witness for C8 at `half = 1`, `mu = 1`, `logvar = 0`, `noise = 3`. -/
theorem C8_sample_reparameterization_witness :
    (0 : ℕ) < 1 ∧
      CVAE.sample id 2 (cat 1 (fun _ => 1) fun _ => 0) (fun _ => 3) 0 =
        (fun _ => (3 : ℚ)) 0 * id ((fun _ => (0 : ℚ)) 0 / 2) + (fun _ => (1 : ℚ)) 0 :=
  ⟨Nat.zero_lt_one,
    C8_sample_reparameterization id 1 (fun _ => 1) (fun _ => 0) (fun _ => 3) 0
      Nat.zero_lt_one⟩

/-- C3: the CVAE is a two-state machine over `_z`: construction leaves it
absent (free); `fix(obs)` stores the (detached) prior draw (free to
fixed); `unfix()` clears it (fixed to free); and while fixed, `forward`
does not consume the stochastic draw, so repeated calls with the same
`obs` return identical `(mean, std)` pairs. -/
theorem C3_cached_latent_state_machine :
    (∀ enc pr dec te pre ld, (CVAE.init enc pr dec te pre ld)._z = none) ∧
    (∀ exp c obs noise,
      (CVAE.fix exp c obs noise)._z =
        some (CVAE.priorWithSample exp c obs noise).2) ∧
    (∀ c, (CVAE.unfix c)._z = none) ∧
    (∀ exp (c : CVAE) obs z, c._z = some z → ∀ noise1 noise2,
      CVAE.forward exp c obs noise1 = CVAE.forward exp c obs noise2) := by
  refine ⟨fun _ _ _ _ _ _ => rfl, fun _ _ _ _ => rfl, fun _ => rfl, ?_⟩
  intro exp c obs z hz noise1 noise2
  simp only [CVAE.forward, hz]

/-- Witness for C3: a concrete fixed-state CVAE returns the same pair for
two different noise draws. -/
theorem C3_cached_latent_state_machine_witness :
    cvaeC2._z = some (fun _ => (0 : ℚ)) ∧
      CVAE.forward id cvaeC2 xOne (fun _ => 5) =
        CVAE.forward id cvaeC2 xOne (fun _ => 7) :=
  ⟨rfl,
    C3_cached_latent_state_machine.2.2.2 id cvaeC2 xOne (fun _ => 0) rfl
      (fun _ => 5) (fun _ => 7)⟩

/-- C10: with a head configured but `acts=None`, `MLP.forward` behaves
exactly like the same MLP without a head: a single unclamped output in
deterministic mode, an unclamped `(mean, std)` pair otherwise, and no
auxiliary output. -/
theorem C10_head_ignored_without_acts (exp : ℚ → ℚ) (m : MLP) (x : ℕ → ℚ)
    (h : m.head = true) :
    MLP.forward exp m x none = MLP.forward exp { m with head := false } x none ∧
    (m.deterministic = true →
      MLP.forward exp m x none = .det (m.final_activation (seqForward m.seq x))) ∧
    (m.deterministic = false →
      MLP.forward exp m x none =
        .prob (fun j => m.final_activation (seqForward m.seq x) j)
          (fun j => exp (m.final_activation (seqForward m.seq x) (m.out_width / 2 + j) / 2))) := by
  refine ⟨rfl, ?_, ?_⟩
  · intro hd
    simp only [MLP.forward, MLP.forwardBase, hd, if_true]
  · intro hd
    simp only [MLP.forward, MLP.forwardBase, hd, Bool.false_eq_true, if_false]

/-- Witness for C10 at a concrete headed deterministic MLP. -/
theorem C10_head_ignored_without_acts_witness :
    mlpC4.head = true ∧
      MLP.forward id mlpC4 xOne none =
        MLP.forward id { mlpC4 with head := false } xOne none ∧
      MLP.forward id mlpC4 xOne none =
        .det (mlpC4.final_activation (seqForward mlpC4.seq xOne)) :=
  ⟨rfl, (C10_head_ignored_without_acts id mlpC4 xOne rfl).1,
    (C10_head_ignored_without_acts id mlpC4 xOne rfl).2.1 rfl⟩

/-- C1: contrary to the claim, the probabilistic no-auxiliary branch of
`MLP.forward` (src/nn.py lines 304-310) applies no clamping: on a network
whose raw log-variance output is 4 (outside `[LOG_VAR_MIN, LOG_VAR_MAX]`),
the returned standard deviation is `exp 2`, strictly above the claimed
upper bound `exp(LOG_VAR_MAX / 2) = exp 1`. -/
theorem C1_logvar_unclamped_bug (exp : ℚ → ℚ) (hexp : StrictMono exp) :
    ∃ mu sigma, MLP.forward exp mlpC1 xOne none = MLPOutput.prob mu sigma ∧
      seqForward mlpC1.seq xOne 1 = 4 ∧ LOG_VAR_MAX < 4 ∧
      sigma 0 = exp 2 ∧ exp (LOG_VAR_MAX / 2) < sigma 0 := by
  refine ⟨_, _, rfl, ?_, ?_, ?_, ?_⟩
  · norm_num [seqForward, SeqModule.forward, LinearM.forward, dot, mlpC1,
      linC1, xOne]
  · norm_num [LOG_VAR_MAX]
  · show exp (mlpC1.final_activation (seqForward mlpC1.seq xOne) (mlpC1.out_width / 2 + 0) / 2) = exp 2
    congr 1
    norm_num [seqForward, SeqModule.forward, LinearM.forward, dot, mlpC1,
      linC1, xOne]
  · show exp (LOG_VAR_MAX / 2) <
      exp (mlpC1.final_activation (seqForward mlpC1.seq xOne) (mlpC1.out_width / 2 + 0) / 2)
    apply hexp
    norm_num [seqForward, SeqModule.forward, LinearM.forward, dot, mlpC1,
      linC1, xOne, LOG_VAR_MAX]

/-- Witness for C1 with the strictly monotone function `id`. -/
theorem C1_logvar_unclamped_bug_witness :
    ∃ mu sigma, MLP.forward id mlpC1 xOne none = MLPOutput.prob mu sigma ∧
      seqForward mlpC1.seq xOne 1 = 4 ∧ LOG_VAR_MAX < 4 ∧
      sigma 0 = id 2 ∧ id (LOG_VAR_MAX / 2) < sigma 0 :=
  C1_logvar_unclamped_bug id strictMono_id

/-- C2: contrary to the claim, `CVAE.forward` (src/nn.py lines 122-131)
never clamps the decoder's log-variance: with a decoder whose raw
log-variance output is 4, the returned standard deviation is `exp 2`,
strictly above the claimed upper bound `exp 1`. -/
theorem C2_cvae_std_unbounded_bug (exp : ℚ → ℚ) (hexp : StrictMono exp)
    (noise : ℕ → ℚ) :
    CVAE.decode exp cvaeC2 (fun _ => 0) xOne 1 = 4 ∧ LOG_VAR_MAX < 4 ∧
      (CVAE.forward exp cvaeC2 xOne noise).2 0 = exp 2 ∧
      exp (LOG_VAR_MAX / 2) < (CVAE.forward exp cvaeC2 xOne noise).2 0 := by
  have hdec : CVAE.decode exp cvaeC2 (fun _ => 0) xOne 1 = 4 := by
    norm_num [CVAE.decode, cvaeC2, MLP.call, MLP.forward, MLP.forwardBase,
      MLPOutput.out, decMLPC2, seqForward, SeqModule.forward, LinearM.forward,
      linC2, dot, cat, xOne]
    rw [show List.range 2 = [0, 1] from rfl]
    norm_num
  have hfwd : (CVAE.forward exp cvaeC2 xOne noise).2 0 = exp 2 := by
    show exp (CVAE.decode exp cvaeC2 (fun _ => 0) xOne
      (cvaeC2._decoder.out_width / 2 + 0) / 2) = exp 2
    congr 1
    rw [show cvaeC2._decoder.out_width / 2 + 0 = 1 from rfl, hdec]
    norm_num
  refine ⟨hdec, by norm_num [LOG_VAR_MAX], hfwd, ?_⟩
  rw [hfwd]
  apply hexp
  norm_num [LOG_VAR_MAX]

/-- Witness for C2 with the strictly monotone function `id` and zero noise. -/
theorem C2_cvae_std_unbounded_bug_witness :
    CVAE.decode id cvaeC2 (fun _ => 0) xOne 1 = 4 ∧ LOG_VAR_MAX < 4 ∧
      (CVAE.forward id cvaeC2 xOne fun _ => 0).2 0 = id 2 ∧
      id (LOG_VAR_MAX / 2) < (CVAE.forward id cvaeC2 xOne fun _ => 0).2 0 :=
  C2_cvae_std_unbounded_bug id strictMono_id fun _ => 0

/-- C4: contrary to the claim, a deterministic MLP with a configured head
and a supplied auxiliary input does NOT return the post-activation output
unchanged: the head branch of `MLP.forward` (src/nn.py line 292) clamps
the primary output to `[LOG_VAR_MIN, LOG_VAR_MAX]`.  Here the raw output
is 5 but the returned primary output is 2. -/
theorem C4_deterministic_head_clamped_bug :
    ∃ y ho, MLP.forward id mlpC4 xOne (some xOne) = MLPOutput.detHead y ho ∧
      mlpC4.deterministic = true ∧ mlpC4.head = true ∧
      mlpC4.final_activation (seqForward mlpC4.seq xOne) 0 = 5 ∧
      y 0 = 2 ∧ y 0 ≠ mlpC4.final_activation (seqForward mlpC4.seq xOne) 0 := by
  have hraw : mlpC4.final_activation (seqForward mlpC4.seq xOne) 0 = 5 := by
    norm_num [mlpC4, seqForward, SeqModule.forward, LinearM.forward, dot, xOne]
  refine ⟨_, _, rfl, rfl, rfl, hraw, ?_, ?_⟩
  · show clampT LOG_VAR_MIN LOG_VAR_MAX
      (mlpC4.final_activation (seqForward mlpC4.post_seq (seqForward mlpC4.pre_seq xOne))) 0 = 2
    norm_num [clampT, LOG_VAR_MIN, LOG_VAR_MAX, mlpC4, MLP.post_seq,
      MLP.pre_seq, seqForward, SeqModule.forward, LinearM.forward, dot, xOne]
  · show clampT LOG_VAR_MIN LOG_VAR_MAX
      (mlpC4.final_activation (seqForward mlpC4.post_seq (seqForward mlpC4.pre_seq xOne))) 0 ≠
        mlpC4.final_activation (seqForward mlpC4.seq xOne) 0
    rw [hraw]
    norm_num [clampT, LOG_VAR_MIN, LOG_VAR_MAX, mlpC4, MLP.post_seq,
      MLP.pre_seq, seqForward, SeqModule.forward, LinearM.forward, dot, xOne]

/-- C6: construction behavior of `MLP.__init__`.  With fewer than two
widths the `ValueError` is raised; with `[2, 3]` and the `WLinear` or
`BiasLinear` primitive construction succeeds, producing exactly one
linear item and no ReLU; but — contrary to the claim — with the default
`nn.Linear` primitive, construction of `MLP([2, 3])` also fails, because
line 256 calls `adaptation_parameters()` on the freshly built primitive
and `nn.Linear` has no such method. -/
theorem C6_construction_error_bug :
    mlpInit [7] true .wlin =
      .error "Layer widths needs at least an in-dimension and out-dimension" ∧
    mlpInit [] true .wlin =
      .error "Layer widths needs at least an in-dimension and out-dimension" ∧
    mlpInit [2, 3] true .wlin = .ok ([SeqItem.fc 2 3], [Param.z 0]) ∧
    mlpInit [2, 3] false .wlin = .ok ([SeqItem.fc 2 6], [Param.z 0]) ∧
    mlpInit [2, 3] true .biasL = .ok ([SeqItem.fc 2 3], kindParams .biasL 0) ∧
    mlpInit [2, 3] true .plain =
      .error "AttributeError: Linear object has no attribute adaptation_parameters" :=
  ⟨rfl, rfl, rfl, rfl, rfl, rfl⟩

/-- Folding the `WLinear` construction loop never fails and collects
exactly one latent vector `z` per processed layer index. -/
theorem mlpInitStep_wlin_fold (l : List ℕ) : ∀ (widths : List ℕ) (n : ℕ)
    (items : List SeqItem) (aps : List Param),
    ∃ items2, l.foldl (mlpInitStep widths n .wlin) (Except.ok (items, aps)) =
      Except.ok (items2, aps ++ l.map Param.z) := by
  induction l with
  | nil => exact fun widths n items aps => ⟨items, by simp⟩
  | cons hd tl ih =>
    intro widths n items aps
    simp only [List.foldl_cons, List.map_cons]
    obtain ⟨its, h⟩ := ih widths n
      (if hd < n - 2 then
        (items ++ [SeqItem.fc (widths.getD hd 0) (widths.getD (hd + 1) 0)]) ++ [SeqItem.relu]
      else items ++ [SeqItem.fc (widths.getD hd 0) (widths.getD (hd + 1) 0)])
      (aps ++ [Param.z hd])
    refine ⟨its, ?_⟩
    rw [show mlpInitStep widths n .wlin (Except.ok (items, aps)) hd =
      Except.ok ((if hd < n - 2 then
        (items ++ [SeqItem.fc (widths.getD hd 0) (widths.getD (hd + 1) 0)]) ++ [SeqItem.relu]
      else items ++ [SeqItem.fc (widths.getD hd 0) (widths.getD (hd + 1) 0)]),
        aps ++ [Param.z hd]) from by
        simp only [mlpInitStep, kindAdaptationParams]]
    rw [h, List.append_assoc]
    rfl

/-- C9 counterexample: for a `w_linear=True` MLP with one layer,
`adaptation_parameters()` (which the source defines as
`return self.parameters()`) returns the latent `z` together with the
generating map's weight and bias, whereas the aggregate of the
constituent primitives' adaptation parameters (the `aparams` collected at
construction) is `[z]` alone — so the claim's equality fails. -/
theorem C9_adaptation_not_only_z_cex :
    MLP.adaptationParameters .wlin 1 =
      [Param.z 0, Param.fc_weight 0, Param.fc_bias 0] ∧
    mlpInit [1, 1] true .wlin = .ok ([SeqItem.fc 1 1], [Param.z 0]) ∧
    MLP.adaptationParameters .wlin 1 ≠ [Param.z 0] :=
  ⟨rfl, rfl, by decide⟩

/-- C9 as amended: `MLP.adaptation_parameters()` returns the module's
full parameter set (`self.parameters()`); the aggregate of the
constituent primitives' adaptation parameters — for `w_linear=True`
exactly one latent `z` per layer — is collected into the `aparams`
attribute during construction but is not what the accessor returns; in
particular for `w_linear=True` the returned set also contains the shared
generating maps' weights. -/
theorem C9_adaptation_parameters_amended :
    (∀ kind n, MLP.adaptationParameters kind n = MLP.parametersList kind n) ∧
    (∀ n, 1 ≤ n → Param.fc_weight 0 ∈ MLP.adaptationParameters .wlin n) ∧
    (∀ ws det, 2 ≤ ws.length →
      ∃ items, mlpInit ws det .wlin =
        .ok (items, (List.range (ws.length - 1)).map Param.z)) := by
  refine ⟨fun _ _ => rfl, ?_, ?_⟩
  · intro n hn
    simp only [MLP.adaptationParameters, MLP.parametersList, List.mem_flatMap]
    exact ⟨0, List.mem_range.mpr (by omega), by simp [kindParams]⟩
  · intro ws det hws
    unfold mlpInit
    rw [if_neg (by omega)]
    obtain ⟨items, h⟩ := mlpInitStep_wlin_fold (List.range (ws.length - 1))
      (if det then ws else doubleLast ws) ws.length [] []
    exact ⟨items, by rw [h]; simp⟩

/-- Witness for C9's amended statement at concrete sizes. -/
theorem C9_adaptation_parameters_amended_witness :
    Param.fc_weight 0 ∈ MLP.adaptationParameters .wlin 2 ∧
      ∃ items, mlpInit [3, 4, 5] true .wlin =
        .ok (items, (List.range ([3, 4, 5].length - 1)).map Param.z) :=
  ⟨C9_adaptation_parameters_amended.2.1 2 (by omega),
    C9_adaptation_parameters_amended.2.2 [3, 4, 5] true (by decide)⟩
